import Mathlib

/-!
Verification of the knowledge-base search facade.

The repository has two source files:

* `src/search/rank.py` — `Ranker.rank` sorts `(article_id, title, view_count)`
  triples by view count, descending, using the stable Python `sorted` with
  `key=lambda x: x[2], reverse=True`, then drops the count.
* `src/search/knowledge_base.py` — `KnowledgeBase` orchestrates an
  Elasticsearch client (the search engine) and a Redis client (the counter
  store): `search` runs a query, attaches the raw Redis value of each hit as its
  score and ranks; `get` fetches a document and increments its counter;
  `index` indexes a document and sets its counter to 0; `delete` deletes a
  document and its counter.

The embedding below is shallow: the behaviour of the external engine enters each
method as an explicit `Except`-valued response (the method bodies are
translated from the Python source), the Redis store is an explicit state
`String → Option String` (Redis stores and returns strings/bytes) together
with a trace of the store operations issued, and the Python `sorted` builtin is
modelled with a comparison returning `Except Unit Bool`, because comparing
`None` with a string raises `TypeError` in Python while string comparison is
lexicographic.
-/

/-- Python comparison of two optional counter-store values, as `sorted` uses
it on the third tuple component in `knowledge_base.py`: Redis `get` returns a
string (bytes) or `None`; comparing two strings is lexicographic, while any
comparison involving `None` raises `TypeError`, modelled as `Except.error`. -/
def pyLtOpt : Option String → Option String → Except Unit Bool
  | some a, some b => Except.ok (decide (a < b))
  | _, _ => Except.error ()

/-- Python comparison on a type with a decidable linear order (the
always-succeeding case of the comparison passed to the sort, e.g. integer
view counts). -/
def pyCmp {β : Type} [LinearOrder β] : β → β → Except Unit Bool :=
  fun a b => Except.ok (decide (a < b))

/-- One insertion step of the stable descending Python sort on
`(id, title, score)` triples: the inserted element `a` moves past every
element whose score is strictly greater and stops at the first element whose
score is `≤` its own, so equal scores keep their original relative order.
A raising comparison aborts the whole sort, as in Python. -/
def insertDescE {β : Type} (cmp : β → β → Except Unit Bool)
    (a : String × String × β) :
    List (String × String × β) → Except Unit (List (String × String × β))
  | [] => Except.ok [a]
  | b :: l =>
    match cmp a.2.2 b.2.2 with
    | Except.error e => Except.error e
    | Except.ok true =>
      match insertDescE cmp a l with
      | Except.error e => Except.error e
      | Except.ok l' => Except.ok (b :: l')
    | Except.ok false => Except.ok (a :: b :: l)

/-- Model of `sorted(unranked_results, key=lambda x: x[2], reverse=True)`:
a stable descending sort by score, built from `insertDescE`; any raising
comparison makes the whole call raise. -/
def sortDescE {β : Type} (cmp : β → β → Except Unit Bool) :
    List (String × String × β) → Except Unit (List (String × String × β))
  | [] => Except.ok []
  | x :: xs =>
    match sortDescE cmp xs with
    | Except.error e => Except.error e
    | Except.ok l => insertDescE cmp x l

/-- Model of `Ranker.rank` from `src/search/rank.py`: sort the
`(article_id, article_title, view_count)` triples in descending order of
view count with the stable Python `sorted`, then keep only `(id, title)`. -/
def Ranker.rank {β : Type} (cmp : β → β → Except Unit Bool)
    (unranked_results : List (String × String × β)) :
    Except Unit (List (String × String)) :=
  match sortDescE cmp unranked_results with
  | Except.error e => Except.error e
  | Except.ok sorted_results =>
    Except.ok (sorted_results.map (fun tup => (tup.1, tup.2.1)))

/-- The descending-score preorder on triples: `scoreGE a b` says `a` may come
before `b` in the ranked output. -/
def scoreGE {β : Type} [LinearOrder β] (a b : String × String × β) : Prop :=
  b.2.2 ≤ a.2.2

instance {β : Type} [LinearOrder β] : DecidableRel (scoreGE (β := β)) :=
  fun a b => inferInstanceAs (Decidable (b.2.2 ≤ a.2.2))

instance {β : Type} [LinearOrder β] : IsTotal (String × String × β) scoreGE :=
  ⟨fun a b => (le_total b.2.2 a.2.2).imp id id⟩

instance {β : Type} [LinearOrder β] : IsTrans (String × String × β) scoreGE :=
  ⟨fun _ _ _ hab hbc => le_trans hbc hab⟩

theorem insertDescE_pyCmp {β : Type} [LinearOrder β]
    (a : String × String × β) (l : List (String × String × β)) :
    insertDescE pyCmp a l = Except.ok (List.orderedInsert scoreGE a l) := by
  induction l with
  | nil => rfl
  | cons b l ih =>
    by_cases h : a.2.2 < b.2.2
    · have hb : ¬ scoreGE a b := not_le.mpr h
      simp [insertDescE, pyCmp, h, List.orderedInsert, hb, ih]
    · have hb : scoreGE a b := not_lt.mp h
      simp [insertDescE, pyCmp, h, List.orderedInsert, hb]

theorem sortDescE_pyCmp {β : Type} [LinearOrder β]
    (l : List (String × String × β)) :
    sortDescE pyCmp l = Except.ok (List.insertionSort scoreGE l) := by
  induction l with
  | nil => rfl
  | cons x xs ih => simp [sortDescE, ih, List.insertionSort, insertDescE_pyCmp]

theorem filter_orderedInsert_of_eq {β : Type} [LinearOrder β] (k : β)
    (a : String × String × β) (ha : a.2.2 = k) :
    ∀ l : List (String × String × β),
      (List.orderedInsert scoreGE a l).filter (fun x => decide (x.2.2 = k))
        = a :: l.filter (fun x => decide (x.2.2 = k))
  | [] => by simp [ha]
  | b :: l => by
    by_cases h : scoreGE a b
    · simp [List.orderedInsert, h, ha]
    · have hbk : ¬ b.2.2 = k := fun hbk => h (le_of_eq (hbk.trans ha.symm))
      simp [List.orderedInsert, h, hbk, filter_orderedInsert_of_eq k a ha l]

theorem filter_orderedInsert_of_ne {β : Type} [LinearOrder β] (k : β)
    (a : String × String × β) (ha : ¬ a.2.2 = k) :
    ∀ l : List (String × String × β),
      (List.orderedInsert scoreGE a l).filter (fun x => decide (x.2.2 = k))
        = l.filter (fun x => decide (x.2.2 = k))
  | [] => by simp [ha]
  | b :: l => by
    by_cases h : scoreGE a b
    · simp [List.orderedInsert, h, ha]
    · by_cases hbk : b.2.2 = k <;>
        simp [List.orderedInsert, h, hbk, filter_orderedInsert_of_ne k a ha l]

/-- The stable descending sort leaves each equal-score class in its original
order: filtering the sorted list at any fixed score gives the same list as
filtering the input. -/
theorem filter_insertionSort_scoreGE {β : Type} [LinearOrder β] (k : β) :
    ∀ l : List (String × String × β),
      (List.insertionSort scoreGE l).filter (fun x => decide (x.2.2 = k))
        = l.filter (fun x => decide (x.2.2 = k))
  | [] => rfl
  | a :: l => by
    by_cases ha : a.2.2 = k
    · rw [List.insertionSort, filter_orderedInsert_of_eq k a ha,
        filter_insertionSort_scoreGE k l]
      simp [ha]
    · rw [List.insertionSort, filter_orderedInsert_of_ne k a ha,
        filter_insertionSort_scoreGE k l]
      simp [ha]

/-- One operation issued against the Redis counter store, recorded so that
read-only behaviour (no `set`/`incr`/`del`) is observable. -/
inductive StoreOp where
  | get (key : String)
  | set (key : String) (value : String)
  | incr (key : String)
  | del (key : String)

/-- The counter store: the current key-value map (Redis stores and returns
string values) together with the list of operations issued so far. -/
structure StoreState where
  store : String → Option String
  trace : List StoreOp

/-- Redis `GET key`: returns the stored string, or `None` on a miss. -/
def redisGet (σ : StoreState) (key : String) : Option String × StoreState :=
  (σ.store key, { σ with trace := σ.trace ++ [StoreOp.get key] })

/-- Redis `SET key value`. -/
def redisSet (σ : StoreState) (key value : String) : StoreState :=
  { store := fun k => if k = key then some value else σ.store k,
    trace := σ.trace ++ [StoreOp.set key value] }

/-- Decimal value of a non-empty string of ASCII digits, the way Redis INCR
interprets a stored value; `none` on anything else (Redis INCR errors on a
non-integer value, which never arises in these flows since the knowledge
base only ever stores decimal integers under article ids). -/
def parseNat (s : String) : Option ℕ :=
  if !s.data.isEmpty && s.data.all (fun c => c.isDigit) then
    some (s.data.foldl (fun n c => n * 10 + (c.toNat - 48)) 0)
  else none

/-- Redis `INCR key`: interpret the stored string as an integer (an absent
key counts as 0) and store its successor. -/
def redisIncr (σ : StoreState) (key : String) : StoreState :=
  { store := fun k =>
      if k = key then
        some (toString (((σ.store key).bind parseNat).getD 0 + 1))
      else σ.store k,
    trace := σ.trace ++ [StoreOp.incr key] }

/-- Redis `DEL key`. -/
def redisDel (σ : StoreState) (key : String) : StoreState :=
  { store := fun k => if k = key then none else σ.store k,
    trace := σ.trace ++ [StoreOp.del key] }

/-- A search-engine hit: document id plus its stored title, as read off the
query response in `KnowledgeBase.search`. -/
structure Hit where
  id : String
  title : String

/-- The stored fields of an article document (the _source of the response). -/
structure Doc where
  title : String
  body : String
  locale : String

/-- The reply of the engine to an index request: the created flag and the
assigned _id of the response. -/
structure IndexResp where
  created : Bool
  id : String

/-- The reply of the engine to a delete request: the found flag. -/
structure DeleteResp where
  found : Bool

/-- How a `KnowledgeBase.search` call can fail: the engine call raising
(unreachable cluster / malformed query — there is no try/except around
`s.execute()`), or Python raising `TypeError` inside `sorted` when the
scores are not mutually comparable. -/
inductive SearchErr where
  | engine
  | typeError

/-- The enrichment loop of `KnowledgeBase.search` (lines 92–97): for each
hit, read its view count from Redis and build the
`(article_id, hit.title, self.redis.get(article_id))` triple. The raw Redis
reply is attached unparsed. -/
def enrichLoop : List Hit → StoreState → List (String × String × Option String) × StoreState
  | [], σ => ([], σ)
  | h :: hs, σ =>
    let r := redisGet σ h.id
    let rest := enrichLoop hs r.2
    ((h.id, h.title, r.1) :: rest.1, rest.2)

/-- Model of `KnowledgeBase.search` from `src/search/knowledge_base.py`: execute the
query (the answer of the engine is the `resp` argument; an engine exception
propagates, nothing catches it), enrich each hit with its raw Redis view
count, and rank with `Ranker.rank`.  Returns the ranked `(id, title)` list
or the propagated exception, together with the counter-store state. -/
def KnowledgeBase.search (resp : Except Unit (List Hit)) (σ : StoreState) :
    Except SearchErr (List (String × String)) × StoreState :=
  match resp with
  | Except.error _ => (Except.error SearchErr.engine, σ)
  | Except.ok hits =>
    let res := enrichLoop hits σ
    match Ranker.rank pyLtOpt res.1 with
    | Except.error _ => (Except.error SearchErr.typeError, res.2)
    | Except.ok ranked_results => (Except.ok ranked_results, res.2)

/-- Model of `KnowledgeBase.get`: the try/except wraps only the engine fetch, whose
outcome is `resp`; on an exception (missing document or engine failure) the
method returns `None` without touching Redis, otherwise it increments the
view counter of the article and returns the stored fields of the document. -/
def KnowledgeBase.get (article_id : String) (resp : Except Unit Doc)
    (σ : StoreState) : Option Doc × StoreState :=
  match resp with
  | Except.error _ => (none, σ)
  | Except.ok response => (some response, redisIncr σ article_id)

/-- Model of `KnowledgeBase.get` with the Redis increment itself allowed to fail
(`incrFail = true` models the Redis client raising, e.g. the store being
down). The try/except in the source wraps only the engine call, so an exception
raised by `self.redis.incr(article_id)` propagates to the caller. -/
def KnowledgeBase.getF (article_id : String) (resp : Except Unit Doc)
    (incrFail : Bool) (σ : StoreState) :
    Except Unit (Option Doc × StoreState) :=
  match resp with
  | Except.error _ => Except.ok (none, σ)
  | Except.ok response =>
    if incrFail then Except.error ()
    else Except.ok (some response, redisIncr σ article_id)

/-- Model of `KnowledgeBase.index`: the outcome of the engine indexing call is `resp`; on
an exception the method returns `(False, None)` without touching Redis,
otherwise it sets the counter of the engine-assigned id to 0 and returns
the pair of the created flag and the assigned _id. -/
def KnowledgeBase.index (resp : Except Unit IndexResp) (σ : StoreState) :
    (Bool × Option String) × StoreState :=
  match resp with
  | Except.error _ => ((false, none), σ)
  | Except.ok response =>
    ((response.created, some response.id), redisSet σ response.id "0")

/-- Model of `KnowledgeBase.delete`: the outcome of the engine delete call is `resp`; on
an exception the method returns `False` without touching Redis, otherwise it
deletes the counter key of the article and returns the found flag. -/
def KnowledgeBase.delete (article_id : String) (resp : Except Unit DeleteResp)
    (σ : StoreState) : Bool × StoreState :=
  match resp with
  | Except.error _ => (false, σ)
  | Except.ok response => (response.found, redisDel σ article_id)

/-- The combined state of the two external collaborators: the documents
currently held by the search engine and the counter store. -/
structure Sys where
  engine : String → Option Doc
  σ : StoreState

/-- The get-by-id behaviour of the engine when the engine itself is reachable:
a present document is returned, a missing one raises (the Python client
raises NotFoundError, landing in the bare except of `KnowledgeBase.get`). -/
def engineGetResp (engine : String → Option Doc) (article_id : String) :
    Except Unit Doc :=
  match engine article_id with
  | some d => Except.ok d
  | none => Except.error ()

/-- One public knowledge-base operation, with the engine-side data the
operation needs (the hits a query returns, the id the engine assigns at
indexing time and whether it reports a creation). -/
inductive KBOp where
  | search (hits : List Hit)
  | get (article_id : String)
  | index (article_id : String) (article : Doc) (created : Bool)
  | delete (article_id : String)

/-- The effect of one operation on engine and counter store when every
external call succeeds (no engine exception, counter store up): each branch
runs the corresponding `KnowledgeBase` method on the successful
response and applies the engine-side document change. -/
def stepOk (s : Sys) : KBOp → Sys
  | KBOp.search hits =>
    { s with σ := (KnowledgeBase.search (Except.ok hits) s.σ).2 }
  | KBOp.get article_id =>
    { s with
      σ := (KnowledgeBase.get article_id (engineGetResp s.engine article_id) s.σ).2 }
  | KBOp.index article_id article created =>
    { engine := fun k => if k = article_id then some article else s.engine k,
      σ := (KnowledgeBase.index (Except.ok ⟨created, article_id⟩) s.σ).2 }
  | KBOp.delete article_id =>
    { engine := fun k => if k = article_id then none else s.engine k,
      σ := (KnowledgeBase.delete article_id
              (Except.ok ⟨(s.engine article_id).isSome⟩) s.σ).2 }

/-- Run a sequence of all-calls-succeed operations from a state. -/
def runOps (s : Sys) : List KBOp → Sys
  | [] => s
  | op :: ops => runOps (stepOk s op) ops

/-- The lifecycle invariant of §3 of the design: a view-count entry exists
in the counter store exactly for the article ids currently present in the
search engine. -/
def SyncInv (s : Sys) : Prop :=
  ∀ k, (s.engine k).isSome ↔ (s.σ.store k).isSome

/-- The empty system: no documents, no counters, empty trace. -/
def sysEmpty : Sys :=
  { engine := fun _ => none, σ := { store := fun _ => none, trace := [] } }

theorem enrichLoop_state (hits : List Hit) (σ : StoreState) :
    (enrichLoop hits σ).2
      = { store := σ.store,
          trace := σ.trace ++ hits.map (fun h => StoreOp.get h.id) } := by
  induction hits generalizing σ with
  | nil => simp [enrichLoop]
  | cons h hs ih => simp [enrichLoop, redisGet, ih, List.append_assoc]

theorem search_state (resp : Except Unit (List Hit)) (σ : StoreState) :
    ∃ ks : List String,
      (KnowledgeBase.search resp σ).2
        = { store := σ.store, trace := σ.trace ++ ks.map StoreOp.get } := by
  cases resp with
  | error e => exact ⟨[], by simp [KnowledgeBase.search]⟩
  | ok hits =>
    refine ⟨hits.map Hit.id, ?_⟩
    have h := enrichLoop_state hits σ
    cases hr : Ranker.rank pyLtOpt (enrichLoop hits σ).1 with
    | error e => simp [KnowledgeBase.search, hr, h, List.map_map, Function.comp]
    | ok ranked => simp [KnowledgeBase.search, hr, h, List.map_map, Function.comp]

theorem enrichLoop_fst (hits : List Hit) (σ : StoreState) :
    (enrichLoop hits σ).1
      = hits.map (fun h => (h.id, h.title, σ.store h.id)) := by
  induction hits generalizing σ with
  | nil => rfl
  | cons h hs ih => simp [enrichLoop, redisGet, ih]

theorem pyLtOpt_none_left (b : Option String) :
    pyLtOpt none b = Except.error () := by
  cases b <;> rfl

theorem pyLtOpt_none_right (a : Option String) :
    pyLtOpt a none = Except.error () := by
  cases a <;> rfl

/-- C1: `Ranker.rank` on any finite list of `(id, title, score)` triples
with totally ordered scores succeeds and returns the `(id, title)` pairs of
the input sorted in stable descending order of score: the output projects a
reordering (permutation) of the input of the same length that is sorted by
`scoreGE` (descending scores) and whose equal-score classes keep the
original relative order; the empty input gives the empty output, and
`[(a,"A",5),(b,"B",5),(c,"C",9)]` ranks to `[(c,"C"),(a,"A"),(b,"B")]`. -/
theorem rank_stable_descending :
    (∀ (β : Type) [LinearOrder β] (xs : List (String × String × β)),
      ∃ ys : List (String × String × β),
        Ranker.rank pyCmp xs = Except.ok (ys.map (fun t => (t.1, t.2.1)))
        ∧ ys.length = xs.length
        ∧ ys.Perm xs
        ∧ List.Sorted scoreGE ys
        ∧ ∀ k : β, ys.filter (fun x => decide (x.2.2 = k))
            = xs.filter (fun x => decide (x.2.2 = k)))
    ∧ Ranker.rank pyCmp ([] : List (String × String × ℕ)) = Except.ok []
    ∧ Ranker.rank pyCmp [("a", "A", (5 : ℕ)), ("b", "B", 5), ("c", "C", 9)]
        = Except.ok [("c", "C"), ("a", "A"), ("b", "B")] := by
  refine ⟨?_, rfl, rfl⟩
  intro β _ xs
  refine ⟨List.insertionSort scoreGE xs, ?_, ?_, ?_, ?_, ?_⟩
  · simp [Ranker.rank, sortDescE_pyCmp]
  · exact List.length_insertionSort _ _
  · exact List.perm_insertionSort _ _
  · exact List.sorted_insertionSort _ _
  · exact fun k => filter_insertionSort_scoreGE k xs

/-- C6: `KnowledgeBase.search` propagates an engine-side failure: when the
engine call raises (unreachable engine or malformed query) the whole search
fails with the engine error — it is not swallowed into an empty result, and
no partial result or counter-store access is produced. -/
theorem search_propagates_engine_error (e : Unit) (σ : StoreState) :
    KnowledgeBase.search (Except.error e) σ
      = (Except.error SearchErr.engine, σ) := rfl

/-- C9: `KnowledgeBase.search` has no side effect on the counter store: for
any engine response the store map is unchanged and the only counter-store
operations issued are reads (`get`), never `incr`, `set` or `del`. -/
theorem search_counter_read_only (resp : Except Unit (List Hit))
    (σ : StoreState) :
    (KnowledgeBase.search resp σ).2.store = σ.store
    ∧ ∃ ks : List String,
        (KnowledgeBase.search resp σ).2.trace
          = σ.trace ++ ks.map StoreOp.get := by
  obtain ⟨ks, h⟩ := search_state resp σ
  exact ⟨by rw [h], ks, by rw [h]⟩

/-- C2 counterexample: with an empty counter store the enrichment attaches
`none` — not the view count 0 — to a hit whose id has no counter entry, and
a two-hit search in which one hit has a counter entry and the other does not
fails with `TypeError` (Python cannot compare `None` with a string inside
`sorted`) instead of succeeding with the miss treated as 0. -/
theorem search_miss_counterexample :
    (enrichLoop [⟨"a", "A"⟩] { store := fun _ => none, trace := [] }).1
        = [("a", "A", (none : Option String))]
    ∧ (KnowledgeBase.search (Except.ok [⟨"a", "A"⟩, ⟨"b", "B"⟩])
          { store := fun k => if k = "b" then some "5" else none,
            trace := [] }).1
        = Except.error SearchErr.typeError :=
  ⟨rfl, rfl⟩

/-- C2 (amended): `KnowledgeBase.search` enriches each hit with the raw
counter-store reply, so a counter-store miss attaches the absent value
(`None`), not 0; and a search returning two hits at least one of which has
no counter entry fails with `TypeError` when ranking rather than treating
the miss as 0. -/
theorem search_miss_passes_none_and_raises :
    (∀ (hits : List Hit) (σ : StoreState),
        (enrichLoop hits σ).1
          = hits.map (fun h => (h.id, h.title, σ.store h.id)))
    ∧ (∀ (h1 h2 : Hit) (σ : StoreState),
        σ.store h1.id = none ∨ σ.store h2.id = none →
        (KnowledgeBase.search (Except.ok [h1, h2]) σ).1
          = Except.error SearchErr.typeError) := by
  refine ⟨enrichLoop_fst, ?_⟩
  intro h1 h2 σ hmiss
  have hrank :
      pyLtOpt (σ.store h1.id) (σ.store h2.id) = Except.error () := by
    cases hmiss with
    | inl hm => rw [hm, pyLtOpt_none_left]
    | inr hm => rw [hm, pyLtOpt_none_right]
  simp [KnowledgeBase.search, enrichLoop, redisGet, Ranker.rank, sortDescE,
    insertDescE, hrank]

theorem search_miss_passes_none_and_raises_witness :
    (KnowledgeBase.search (Except.ok [⟨"a", "A"⟩, ⟨"b", "B"⟩])
        { store := fun _ => none, trace := [] }).1
      = Except.error SearchErr.typeError :=
  search_miss_passes_none_and_raises.2 ⟨"a", "A"⟩ ⟨"b", "B"⟩ _ (Or.inl rfl)

/-- C3: `KnowledgeBase.get` on a successful engine fetch returns the
stored fields of the document and increments its counter by exactly 1,
leaving every other key unchanged; on a failed fetch (missing document or
engine error) it returns `None` and leaves the counter store — state and
trace — completely untouched. -/
theorem get_spec :
    (∀ (article_id : String) (d : Doc) (σ : StoreState),
        (KnowledgeBase.get article_id (Except.ok d) σ).1 = some d)
    ∧ (∀ (article_id : String) (d : Doc) (σ : StoreState) (v : String)
          (n : ℕ), σ.store article_id = some v → parseNat v = some n →
        (KnowledgeBase.get article_id (Except.ok d) σ).2.store article_id
          = some (toString (n + 1)))
    ∧ (∀ (article_id k : String) (d : Doc) (σ : StoreState),
        k ≠ article_id →
        (KnowledgeBase.get article_id (Except.ok d) σ).2.store k
          = σ.store k)
    ∧ (∀ (article_id : String) (e : Unit) (σ : StoreState),
        KnowledgeBase.get article_id (Except.error e) σ = (none, σ)) := by
  refine ⟨fun _ _ _ => rfl, ?_, ?_, fun _ _ _ => rfl⟩
  · intro article_id d σ v n hv hn
    simp [KnowledgeBase.get, redisIncr, hv, hn]
  · intro article_id k d σ hk
    simp [KnowledgeBase.get, redisIncr, hk]

theorem get_spec_witness :
    (KnowledgeBase.get "x" (Except.ok ⟨"T", "B", "en"⟩)
        { store := fun k => if k = "x" then some "2" else none,
          trace := [] }).2.store "x" = some (toString (2 + 1))
    ∧ (KnowledgeBase.get "x" (Except.ok ⟨"T", "B", "en"⟩)
        { store := fun k => if k = "x" then some "2" else none,
          trace := [] }).2.store "y" = none :=
  ⟨get_spec.2.1 "x" ⟨"T", "B", "en"⟩ _ "2" 2 rfl rfl,
   get_spec.2.2.1 "x" "y" ⟨"T", "B", "en"⟩ _ (by decide)⟩

/-- C4: `KnowledgeBase.index` is atomic on engine failure: when the engine
indexing call raises it returns `(False, None)` and leaves the counter
store (state and trace) untouched; when it succeeds it returns the engine
`(created, id)` pair of the engine response, the counter of the engine-assigned id is set to
`0` regardless of any previous value (so also on an update of an existing
id), and no other key changes. -/
theorem index_spec :
    (∀ (e : Unit) (σ : StoreState),
        KnowledgeBase.index (Except.error e) σ = ((false, none), σ))
    ∧ (∀ (r : IndexResp) (σ : StoreState),
        (KnowledgeBase.index (Except.ok r) σ).1 = (r.created, some r.id))
    ∧ (∀ (r : IndexResp) (σ : StoreState),
        (KnowledgeBase.index (Except.ok r) σ).2.store r.id = some "0")
    ∧ (∀ (r : IndexResp) (σ : StoreState) (k : String), k ≠ r.id →
        (KnowledgeBase.index (Except.ok r) σ).2.store k = σ.store k) := by
  refine ⟨fun _ _ => rfl, fun _ _ => rfl, ?_, ?_⟩
  · intro r σ
    simp [KnowledgeBase.index, redisSet]
  · intro r σ k hk
    simp [KnowledgeBase.index, redisSet, hk]

theorem index_spec_witness :
    (KnowledgeBase.index (Except.ok ⟨true, "n"⟩)
        { store := fun k => if k = "n" then some "7" else some "4",
          trace := [] }).2.store "n" = some "0"
    ∧ (KnowledgeBase.index (Except.ok ⟨true, "n"⟩)
        { store := fun k => if k = "n" then some "7" else some "4",
          trace := [] }).2.store "m" = some "4" :=
  ⟨index_spec.2.2.1 ⟨true, "n"⟩ _,
   index_spec.2.2.2 ⟨true, "n"⟩ _ "m" (by decide)⟩

/-- C5: `KnowledgeBase.delete`: when the engine delete call itself raises,
the result is `False` and the counter store (state and trace) is untouched;
on every non-raising engine response — including one reporting the document
was not found — the counter key of the article is deleted, other keys are
unchanged, and the `found` field of the response is returned. -/
theorem delete_spec :
    (∀ (article_id : String) (e : Unit) (σ : StoreState),
        KnowledgeBase.delete article_id (Except.error e) σ = (false, σ))
    ∧ (∀ (article_id : String) (r : DeleteResp) (σ : StoreState),
        (KnowledgeBase.delete article_id (Except.ok r) σ).1 = r.found)
    ∧ (∀ (article_id : String) (r : DeleteResp) (σ : StoreState),
        (KnowledgeBase.delete article_id (Except.ok r) σ).2.store article_id
          = none)
    ∧ (∀ (article_id k : String) (r : DeleteResp) (σ : StoreState),
        k ≠ article_id →
        (KnowledgeBase.delete article_id (Except.ok r) σ).2.store k
          = σ.store k) := by
  refine ⟨fun _ _ _ => rfl, fun _ _ _ => rfl, ?_, ?_⟩
  · intro article_id r σ
    simp [KnowledgeBase.delete, redisDel]
  · intro article_id k r σ hk
    simp [KnowledgeBase.delete, redisDel, hk]

theorem delete_spec_witness :
    (KnowledgeBase.delete "x" (Except.ok ⟨false⟩)
        { store := fun _ => some "3", trace := [] }).2.store "x" = none
    ∧ (KnowledgeBase.delete "x" (Except.ok ⟨false⟩)
        { store := fun _ => some "3", trace := [] }).2.store "y" = some "3" :=
  ⟨delete_spec.2.2.1 "x" ⟨false⟩ _,
   delete_spec.2.2.2 "x" "y" ⟨false⟩ _ (by decide)⟩

/-- C8 counterexample: after a successful engine fetch, a failing counter
store during the view-count increment makes `KnowledgeBase.get` itself fail
— the caller gets the propagated counter-store exception, not the
fields of the document. -/
theorem get_incr_failure_counterexample :
    KnowledgeBase.getF "x" (Except.ok ⟨"T", "B", "en"⟩) true
        { store := fun _ => none, trace := [] }
      = Except.error () := rfl

/-- C8 (amended): the increment in `KnowledgeBase.get` is not guarded: only
the engine fetch sits inside the try/except, so a counter-store failure
during the increment propagates to the caller, who does not receive the
fields of the document; with the counter store up the method behaves as
`KnowledgeBase.get`, and an engine-side failure yields `None` whether or
not the counter store is up (the increment is never reached). -/
theorem get_incr_failure_propagates :
    (∀ (article_id : String) (d : Doc) (σ : StoreState),
        KnowledgeBase.getF article_id (Except.ok d) true σ
          = Except.error ())
    ∧ (∀ (article_id : String) (resp : Except Unit Doc) (σ : StoreState),
        KnowledgeBase.getF article_id resp false σ
          = Except.ok (KnowledgeBase.get article_id resp σ))
    ∧ (∀ (article_id : String) (e : Unit) (b : Bool) (σ : StoreState),
        KnowledgeBase.getF article_id (Except.error e) b σ
          = Except.ok (none, σ)) := by
  refine ⟨fun _ _ _ => rfl, ?_, fun _ _ _ _ => rfl⟩
  intro article_id resp σ
  cases resp <;> rfl

theorem stepOk_syncInv (s : Sys) (op : KBOp) (h : SyncInv s) :
    SyncInv (stepOk s op) := by
  cases op with
  | search hits =>
    intro k
    obtain ⟨ks, hst⟩ := search_state (Except.ok hits) s.σ
    simpa [stepOk, hst] using h k
  | get article_id =>
    intro k
    cases he : s.engine article_id with
    | none => simpa [stepOk, engineGetResp, he, KnowledgeBase.get] using h k
    | some d =>
      by_cases hk : k = article_id
      · subst hk
        simp [stepOk, engineGetResp, he, KnowledgeBase.get, redisIncr]
      · simpa [stepOk, engineGetResp, he, KnowledgeBase.get, redisIncr, hk]
          using h k
  | index article_id article created =>
    intro k
    by_cases hk : k = article_id
    · subst hk
      simp [stepOk, KnowledgeBase.index, redisSet]
    · simpa [stepOk, KnowledgeBase.index, redisSet, hk] using h k
  | delete article_id =>
    intro k
    by_cases hk : k = article_id
    · subst hk
      simp [stepOk, KnowledgeBase.delete, redisDel]
    · simpa [stepOk, KnowledgeBase.delete, redisDel, hk] using h k

/-- C7: in every execution in which all external calls succeed, the
orchestration keeps the counter store in sync with the engine: starting
from any state where a view-count entry exists exactly for the documents
present in the engine, any sequence of search/get/index/delete operations
preserves that invariant (index creates the entry at 0, get increments an
existing entry, delete removes entry and document together, search changes
nothing). -/
theorem lifecycle_invariant (ops : List KBOp) (s : Sys) (h : SyncInv s) :
    SyncInv (runOps s ops) := by
  induction ops generalizing s with
  | nil => exact h
  | cons op ops ih => exact ih _ (stepOk_syncInv s op h)

theorem lifecycle_invariant_witness :
    SyncInv (runOps sysEmpty
      [KBOp.index "a" ⟨"Intro", "Getting started", "en"⟩ true,
       KBOp.get "a", KBOp.search [⟨"a", "Intro"⟩], KBOp.delete "a"]) :=
  lifecycle_invariant _ sysEmpty (fun _ => Iff.rfl)

/-- C10: the score `KnowledgeBase.search` hands the ranker for each hit is
the raw counter-store reply — a string, or the absent value on a miss —
never a parsed integer, so when every hit has a counter entry the ordering
is by descending lexicographic string comparison: whenever the stored
values satisfy `v1 < v2` as strings the second article wins, and in
particular an article with view count "9" is ranked above one with "10". -/
theorem search_lexicographic_scores :
    (∀ (hits : List Hit) (σ : StoreState),
        (enrichLoop hits σ).1.map (fun t => t.2.2)
          = hits.map (fun h => σ.store h.id))
    ∧ (∀ (h1 h2 : Hit) (σ : StoreState) (v1 v2 : String),
        σ.store h1.id = some v1 → σ.store h2.id = some v2 → v1 < v2 →
        (KnowledgeBase.search (Except.ok [h1, h2]) σ).1
          = Except.ok [(h2.id, h2.title), (h1.id, h1.title)])
    ∧ (KnowledgeBase.search (Except.ok [⟨"a", "A"⟩, ⟨"b", "B"⟩])
          { store := fun k =>
              if k = "a" then some "10"
              else if k = "b" then some "9" else none,
            trace := [] }).1
        = Except.ok [("b", "B"), ("a", "A")] := by
  have hmain : ∀ (h1 h2 : Hit) (σ : StoreState) (v1 v2 : String),
      σ.store h1.id = some v1 → σ.store h2.id = some v2 → v1 < v2 →
      (KnowledgeBase.search (Except.ok [h1, h2]) σ).1
        = Except.ok [(h2.id, h2.title), (h1.id, h1.title)] := by
    intro h1 h2 σ v1 v2 hv1 hv2 hlt
    have hcmp : pyLtOpt (σ.store h1.id) (σ.store h2.id) = Except.ok true := by
      rw [hv1, hv2]
      simp [pyLtOpt, hlt]
    simp [KnowledgeBase.search, enrichLoop, redisGet, Ranker.rank, sortDescE,
      insertDescE, hcmp]
  refine ⟨?_, hmain, ?_⟩
  · intro hits σ
    simp [enrichLoop_fst]
  · exact hmain ⟨"a", "A"⟩ ⟨"b", "B"⟩ _ "10" "9" rfl rfl
      (by rw [String.lt_iff_toList_lt]; decide)

theorem search_lexicographic_scores_witness :
    (KnowledgeBase.search (Except.ok [⟨"p", "P"⟩, ⟨"q", "Q"⟩])
        { store := fun k =>
            if k = "p" then some "10"
            else if k = "q" then some "9" else none,
          trace := [] }).1
      = Except.ok [("q", "Q"), ("p", "P")] :=
  search_lexicographic_scores.2.1 ⟨"p", "P"⟩ ⟨"q", "Q"⟩ _ "10" "9" rfl rfl
    (by rw [String.lt_iff_toList_lt]; decide)
